import Mathlib

/-!
Verification of the North Node API core: timezone resolution, civil-to-UT
conversion, and house classification, shallowly embedded from the source
(`src/index.js`, which contains several near-duplicate revisions of the same
handler; the embedding below follows the most complete revision, with
deviations noted at the individual definitions, and `src/index1.js` where a
claim refers to it).

Numbers: JavaScript numbers are modelled as `ℚ` (all source computations here
are exact decimal/integer arithmetic, so no floating-point rounding is
involved on the values the claims quantify over); month/day are `ℕ`, year `ℤ`.
-/

namespace NorthNode

/-! ### Character classes and numeral parsing (`parseInt` on digit captures) -/

/-- The character class `[A-Z]` of the timezone-code regex. -/
def isUpperChar (c : Char) : Bool := 'A' ≤ c && c ≤ 'Z'

/-- The character class `\d` (`[0-9]`). -/
def isDigitChar (c : Char) : Bool := '0' ≤ c && c ≤ '9'

/-- `parseInt` on a captured run of decimal digits. -/
def digitsVal (l : List Char) : ℕ := l.foldl (fun a c => 10 * a + (c.toNat - 48)) 0

/-! ### The explicit-offset matchers of `processTimezone`

Source (`src/index.js`, `processTimezone`, the revision with the hybrid
resolver): an explicit `tz` query parameter is first matched against
`/([A-Z]+)?([+-])(\d+)(?::(\d+))?/` (an unanchored search: the leftmost
position where an optional run of capital letters is followed by a sign, one
or more digits, and an optional `:mm` group) and, failing that, against the
anchored `/^([+-])?(\d+)$/`. -/

/-- Capture groups of a successful complex match: `code` is group 1 (empty
list when the group did not participate), `plus` is whether group 2 is `'+'`,
`hours` and `minutes` are the digit runs of groups 3 and 4. -/
structure TzMatch where
  code : List Char
  plus : Bool
  hours : List Char
  minutes : Option (List Char)
deriving DecidableEq, Repr

/-- The optional `(?::(\d+))?` tail: a colon followed by at least one digit
(greedy), otherwise the group is skipped. -/
def colonMinutes (l : List Char) : Option (List Char) :=
  match l with
  | [] => none
  | c :: rest =>
    if c = ':' then
      (if (rest.takeWhile isDigitChar).isEmpty then none
       else some (rest.takeWhile isDigitChar))
    else none

/-- Attempt of `/([A-Z]+)?([+-])(\d+)(?::(\d+))?/` anchored at the head of
`l`.  A greedy run of `[A-Z]` can only be followed by the sign (shorter runs
end on a letter, which is not a sign, so no further backtracking exists), and
when no letter starts at this position the optional group is skipped and the
head itself must be the sign. -/
def tryComplexAt (l : List Char) : Option TzMatch :=
  let run := l.takeWhile isUpperChar
  match l.drop run.length with
  | c :: rest =>
    if c = '+' || c = '-' then
      let ds := rest.takeWhile isDigitChar
      if ds.isEmpty then none
      else some ⟨run, c = '+', ds, colonMinutes (rest.drop ds.length)⟩
    else none
  | [] => none

/-- Unanchored leftmost search of the complex pattern (JavaScript
`String.prototype.match` without the `g` flag). -/
def complexSearch : List Char → Option TzMatch
  | [] => none
  | c :: rest =>
    match tryComplexAt (c :: rest) with
    | some m => some m
    | none => complexSearch rest

/-- The anchored simple pattern `/^([+-])?(\d+)$/`: an optional sign followed
by one or more digits consuming the whole string.  Returns the sign
(`true` unless `'-'`) and the digit run. -/
def simpleParse (l : List Char) : Option (Bool × List Char) :=
  match l with
  | [] => none
  | c :: rest =>
    if c = '+' then
      (if rest.isEmpty || !rest.all isDigitChar then none else some (true, rest))
    else if c = '-' then
      (if rest.isEmpty || !rest.all isDigitChar then none else some (false, rest))
    else if (c :: rest).all isDigitChar then some (true, c :: rest)
    else none

/-- A `TimezoneResolution`: identifier, UTC offset in hours as used by the
subsequent UT conversion, and the DST flag. -/
structure TZResult where
  id : String
  offset : ℚ
  isDST : Bool
deriving DecidableEq, Repr

/-- `sign * (hours + minutes / 60)` computed from a complex match, exactly as
in the source (`minutes` defaults to 0 when group 4 is absent). -/
def matchOffset (m : TzMatch) : ℚ :=
  (if m.plus then 1 else -1) *
    ((digitsVal m.hours : ℚ) +
      (match m.minutes with
       | some ms => (digitsVal ms : ℚ)
       | none => 0) / 60)

/-- The explicit-offset branch of `processTimezone`: the complex shape wins
and its offset is negated (`offset: -offset  // Negate the offset for
calculations`), DST is reported `false`; otherwise the simple numeric shape
yields `sign * hours` with identifier `"UTC"`; otherwise no explicit result
(the caller falls through to coordinate-derived resolution). -/
def parseExplicitTz (s : String) : Option TZResult :=
  match complexSearch s.data with
  | some m =>
    some ⟨if m.code.isEmpty then "UTC" else String.mk m.code, -(matchOffset m), false⟩
  | none =>
    match simpleParse s.data with
    | some (pos, ds) => some ⟨"UTC", (if pos then 1 else -1) * (digitsVal ds : ℚ), false⟩
    | none => none

/-! ### Coordinate-derived timezone identity (`getLikelyTimezoneId`)

Source: the hybrid revision's `getLikelyTimezoneId(longitude, latitude)`:
a rectangular continental-US box split into four longitude bands, and
otherwise a chain of longitude bands for international zones, defaulting to
`"Etc/UTC"`. -/

/-- The international longitude-band chain of `getLikelyTimezoneId` (the code
reached when the US box does not apply). -/
def intlTimezoneId (longitude : ℚ) : String :=
  if -14 ≤ longitude ∧ longitude ≤ 0 then "Europe/London"
  else if 0 < longitude ∧ longitude ≤ 30 then "Europe/Paris"
  else if 30 < longitude ∧ longitude ≤ 60 then "Europe/Moscow"
  else if 60 < longitude ∧ longitude ≤ 90 then "Asia/Kolkata"
  else if 90 < longitude ∧ longitude ≤ 135 then "Asia/Shanghai"
  else if 135 < longitude ∧ longitude ≤ 150 then "Asia/Tokyo"
  else if 150 < longitude ∧ longitude ≤ 180 then "Pacific/Auckland"
  else if -60 < longitude ∧ longitude ≤ -14 then "Atlantic/Azores"
  else if -150 < longitude ∧ longitude ≤ -125 then "America/Anchorage"
  else "Etc/UTC"

/-- `getLikelyTimezoneId`: US locations (latitude 24–50, longitude −125…−66)
are split into the four mainland bands; everything else (including the
unreachable fall-through inside the box) uses the international chain. -/
def getLikelyTimezoneId (longitude latitude : ℚ) : String :=
  if 24 ≤ latitude ∧ latitude ≤ 50 ∧ -125 ≤ longitude ∧ longitude ≤ -66 then
    if -83 ≤ longitude ∧ longitude ≤ -66 then "America/New_York"
    else if -93 ≤ longitude ∧ longitude < -83 then "America/Chicago"
    else if -112 ≤ longitude ∧ longitude < -93 then "America/Denver"
    else if -125 ≤ longitude ∧ longitude < -112 then "America/Los_Angeles"
    else intlTimezoneId longitude
  else intlTimezoneId longitude

/-- `getStandardOffset`: the table of standard (non-DST) offsets, defaulting
to 0 for unknown identifiers. -/
def getStandardOffset (tzid : String) : ℚ :=
  if tzid = "America/New_York" then -5
  else if tzid = "America/Chicago" then -6
  else if tzid = "America/Denver" then -7
  else if tzid = "America/Los_Angeles" then -8
  else if tzid = "America/Anchorage" then -9
  else if tzid = "America/Halifax" then -4
  else if tzid = "Europe/London" then 0
  else if tzid = "Europe/Paris" then 1
  else if tzid = "Europe/Berlin" then 1
  else if tzid = "Europe/Moscow" then 3
  else if tzid = "Asia/Dubai" then 4
  else if tzid = "Asia/Kolkata" then 11/2
  else if tzid = "Asia/Shanghai" then 8
  else if tzid = "Asia/Tokyo" then 9
  else if tzid = "Australia/Sydney" then 10
  else if tzid = "Pacific/Auckland" then 12
  else if tzid = "Etc/UTC" then 0
  else 0

/-! ### Gregorian calendar primitives

`new Date(y, m-1, d)` / `setDate` / `getDay` arithmetic of the source,
modelled on the proleptic Gregorian calendar that JavaScript `Date` uses. -/

/-- Gregorian leap-year rule. -/
def isLeapYear (y : ℤ) : Bool := (y % 4 == 0 && y % 100 != 0) || y % 400 == 0

/-- Days in a month (`new Date(year, month, 0).getDate()`); 0 for an invalid
month number. -/
def daysInMonth (y : ℤ) (m : ℕ) : ℕ :=
  if m = 1 then 31
  else if m = 2 then (if isLeapYear y then 29 else 28)
  else if m = 3 then 31
  else if m = 4 then 30
  else if m = 5 then 31
  else if m = 6 then 30
  else if m = 7 then 31
  else if m = 8 then 31
  else if m = 9 then 30
  else if m = 10 then 31
  else if m = 11 then 30
  else if m = 12 then 31
  else 0

/-- Sakamoto's day-of-week table. -/
def sakamotoAdj (m : ℕ) : ℕ := [0, 3, 2, 5, 0, 3, 5, 1, 4, 6, 2, 4].getD (m - 1) 0

/-- Day of week of a Gregorian date, 0 = Sunday (JavaScript `Date.getDay`),
for positive years (the DST rules below only consult years ≥ 1966). -/
def dayOfWeek (y m d : ℕ) : ℕ :=
  let yy := if m < 3 then y - 1 else y
  (yy + yy / 4 + yy / 400 + sakamotoAdj m + d - yy / 100) % 7

/-- The walk-back loop of `getLastDayOfMonth`: from day `d` downwards, the
first day whose weekday is `target`. -/
def lastDowGo (y m target : ℕ) : ℕ → ℕ
  | 0 => 0
  | Nat.succ d => if dayOfWeek y m (d + 1) = target then d + 1 else lastDowGo y m target d

/-- `getLastDayOfMonth(year, month, targetDayOfWeek)`: the last occurrence of
the given weekday in the month. -/
def lastDowDay (y m target : ℕ) : ℕ := lastDowGo y m target (daysInMonth (y : ℤ) m)

/-- `getNthDayOfMonth(year, month, dayOfWeek, n)`:
`1 + ((dayOfWeek - firstDayOfWeek + 7) % 7) + (n - 1) * 7`. -/
def nthDowDay (y m target n : ℕ) : ℕ :=
  (1 + (target + 7 - dayOfWeek y m 1) % 7) + (n - 1) * 7

/-! ### Manual DST rule table (the hybrid revision's fallback calculation) -/

/-- The US DST eras applied to the four mainland-US zone identifiers:
pre-1966 none; 1966–1986 last Sunday of April … last Sunday of October;
1987–2006 first Sunday of April … last Sunday of October; 2007– second
Sunday of March … first Sunday of November.  Start day compared with
`day >= dstStartDay`, end day with `day < dstEndDay`. -/
def usDstOffset (y m d : ℕ) : ℕ :=
  if y < 1966 then 0
  else if y ≤ 1986 then
    (if (4 < m ∧ m < 10) ∨ (m = 4 ∧ lastDowDay y 4 0 ≤ d) ∨ (m = 10 ∧ d < lastDowDay y 10 0)
     then 1 else 0)
  else if y ≤ 2006 then
    (if (4 < m ∧ m < 10) ∨ (m = 4 ∧ nthDowDay y 4 0 1 ≤ d) ∨ (m = 10 ∧ d < lastDowDay y 10 0)
     then 1 else 0)
  else
    (if (3 < m ∧ m < 11) ∨ (m = 3 ∧ nthDowDay y 3 0 2 ≤ d) ∨ (m = 11 ∧ d < nthDowDay y 11 0 1)
     then 1 else 0)

/-- The European DST eras: 1980–1996 last Sunday of March … last Sunday of
September; 1997– last Sunday of March … last Sunday of October. -/
def euDstOffset (y m d : ℕ) : ℕ :=
  if y < 1980 then 0
  else if y ≤ 1996 then
    (if (3 < m ∧ m < 9) ∨ (m = 3 ∧ lastDowDay y 3 0 ≤ d) ∨ (m = 9 ∧ d < lastDowDay y 9 0)
     then 1 else 0)
  else
    (if (3 < m ∧ m < 10) ∨ (m = 3 ∧ lastDowDay y 3 0 ≤ d) ∨ (m = 10 ∧ d < lastDowDay y 10 0)
     then 1 else 0)

/-- Whether the character list `p` is an initial segment of `s`
(`tzid.startsWith("Europe/")`). -/
def charsLead : List Char → List Char → Bool
  | [], _ => true
  | _ :: _, [] => false
  | p :: ps, c :: cs => p = c && charsLead ps cs

/-- The zone dispatch of the manual DST calculation: the four mainland-US
identifiers use the US rule table, identifiers starting with `"Europe/"` the
European one, anything else gets no DST. -/
def manualDstOffset (tzid : String) (y m d : ℕ) : ℕ :=
  if tzid = "America/New_York" ∨ tzid = "America/Chicago" ∨
     tzid = "America/Denver" ∨ tzid = "America/Los_Angeles" then
    usDstOffset y m d
  else if charsLead "Europe/".data tzid.data then
    euDstOffset y m d
  else 0

/-- Coordinate-derived resolution (the in-repository manual fallback of the
hybrid `processTimezone`: identifier from `getLikelyTimezoneId`, offset
`stdOffset + dstOffset`, DST flag `dstOffset !== 0`; the path through the
external calendar library is an external collaborator and is modelled as
unavailable, which is exactly the source's fallback behaviour). -/
def coordResolve (lon lat : ℚ) (y m d : ℕ) : TZResult :=
  ⟨getLikelyTimezoneId lon lat,
   getStandardOffset (getLikelyTimezoneId lon lat) +
     (manualDstOffset (getLikelyTimezoneId lon lat) y m d : ℚ),
   manualDstOffset (getLikelyTimezoneId lon lat) y m d != 0⟩

/-- `processTimezone(longitude, latitude, year, month, day, hour, tzParam)`:
an explicit `tz` string that parses in one of the two accepted shapes is
used as-is; otherwise (including when the string matches neither shape)
control falls through to coordinate-derived resolution.  The `hour`
argument is only consumed by the external calendar-library branch. -/
def processTimezone (lon lat : ℚ) (y m d : ℕ) (_hour : ℚ)
    (tzParam : Option String) : TZResult :=
  match tzParam with
  | some s =>
    match parseExplicitTz s with
    | some r => r
    | none => coordResolve lon lat y m d
  | none => coordResolve lon lat y m d

/-! ### Civil-to-UT conversion (the manual branch of the north-node handler)

```
let utHour = localHour - timezone.offset;
let dayAdjustment = 0;
while (utHour < 0)  { utHour += 24; dayAdjustment -= 1; }
while (utHour >= 24) { utHour -= 24; dayAdjustment += 1; }
const localDate = new Date(localYear, localMonth - 1, localDay);
if (dayAdjustment !== 0) localDate.setDate(localDate.getDate() + dayAdjustment);
```
-/

/-- A calendar date as handled by `new Date(y, m-1, d)` (months 1-based as in
the request parameters). -/
structure CalDate where
  year : ℤ
  month : ℕ
  day : ℕ
deriving DecidableEq, Repr

/-- A valid proleptic-Gregorian calendar date. -/
def ValidDate (d : CalDate) : Prop :=
  1 ≤ d.month ∧ d.month ≤ 12 ∧ 1 ≤ d.day ∧ d.day ≤ daysInMonth d.year d.month

instance (d : CalDate) : Decidable (ValidDate d) := by
  unfold ValidDate; infer_instance

/-- The two-digit-year adjustment of the JavaScript `Date` constructor:
`new Date(y, …)` interprets `0 ≤ y ≤ 99` as `1900 + y`. -/
def jsDateYear (y : ℤ) : ℤ := if 0 ≤ y ∧ y ≤ 99 then y + 1900 else y

/-- The calendar successor of a date (what `setDate(getDate() + 1)` computes
on a valid date). -/
def nextDay (d : CalDate) : CalDate :=
  if d.day < daysInMonth d.year d.month then ⟨d.year, d.month, d.day + 1⟩
  else if d.month < 12 then ⟨d.year, d.month + 1, 1⟩
  else ⟨d.year + 1, 1, 1⟩

/-- The calendar predecessor of a date (`setDate(getDate() - 1)`). -/
def prevDay (d : CalDate) : CalDate :=
  if 1 < d.day then ⟨d.year, d.month, d.day - 1⟩
  else if 1 < d.month then ⟨d.year, d.month - 1, daysInMonth d.year (d.month - 1)⟩
  else ⟨d.year - 1, 12, 31⟩

/-- `k` calendar days forward. -/
def addDaysNat (d : CalDate) : ℕ → CalDate
  | 0 => d
  | Nat.succ k => nextDay (addDaysNat d k)

/-- `k` calendar days backward. -/
def subDaysNat : CalDate → ℕ → CalDate
  | d, 0 => d
  | d, Nat.succ k => subDaysNat (prevDay d) k

/-- `setDate(getDate() + n)` for a signed day shift `n`: proper calendar
arithmetic across month and year boundaries. -/
def addDays (d : CalDate) (n : ℤ) : CalDate :=
  if 0 ≤ n then addDaysNat d n.toNat else subDaysNat d (-n).toNat

/-- The `while (utHour < 0) { utHour += 24; dayAdjustment -= 1; }` loop:
returns the final hour together with the day adjustment it contributed. -/
def hourUp (x : ℚ) : ℚ × ℤ :=
  if h : x < 0 then
    ((hourUp (x + 24)).1, (hourUp (x + 24)).2 - 1)
  else (x, 0)
termination_by (Int.ceil (-x / 24)).toNat
decreasing_by
  have hx : (0 : ℚ) < -x := by linarith
  have hc : 0 < Int.ceil (-x / 24) := Int.ceil_pos.mpr (by positivity)
  have he : -(x + 24) / 24 = -x / 24 - 1 := by ring
  rw [he, Int.ceil_sub_one]
  omega

/-- The `while (utHour >= 24) { utHour -= 24; dayAdjustment += 1; }` loop. -/
def hourDown (x : ℚ) : ℚ × ℤ :=
  if h : 24 ≤ x then
    ((hourDown (x - 24)).1, (hourDown (x - 24)).2 + 1)
  else (x, 0)
termination_by (Int.floor (x / 24)).toNat
decreasing_by
  have hf : 0 < Int.floor (x / 24) := by
    rw [Int.lt_iff_add_one_le, zero_add, Int.le_floor]
    push_cast
    linarith
  have he : (x - 24) / 24 = x / 24 - 1 := by ring
  rw [he, Int.floor_sub_one]
  omega

/-- The result of the civil-to-UT conversion: the adjusted calendar date, the
normalized UT hour, and the whole-day adjustment that was applied. -/
structure UTInstant where
  year : ℤ
  month : ℕ
  day : ℕ
  hour : ℚ
  dayAdj : ℤ
deriving DecidableEq, Repr

/-- The manual civil-to-UT conversion of the north-node handler:
`utHour = localHour - offset`, the two normalization loops, then the day
adjustment applied to `new Date(localYear, localMonth - 1, localDay)`. -/
def convertToUT (y : ℤ) (m d : ℕ) (localHour offset : ℚ) : UTInstant :=
  ⟨(addDays ⟨jsDateYear y, m, d⟩
      ((hourUp (localHour - offset)).2 + (hourDown (hourUp (localHour - offset)).1).2)).year,
   (addDays ⟨jsDateYear y, m, d⟩
      ((hourUp (localHour - offset)).2 + (hourDown (hourUp (localHour - offset)).1).2)).month,
   (addDays ⟨jsDateYear y, m, d⟩
      ((hourUp (localHour - offset)).2 + (hourDown (hourUp (localHour - offset)).1).2)).day,
   (hourDown (hourUp (localHour - offset)).1).1,
   (hourUp (localHour - offset)).2 + (hourDown (hourUp (localHour - offset)).1).2⟩

/-! ### House classification (the north-node handler's cusp loop)

```
for (let i = 0; i < 12; i++) {
  const currentCusp = cusps[i];
  const nextCusp = (i === 11) ? cusps[0] : cusps[i + 1];
  if (nextCusp < currentCusp) {
    if ((nodeLon >= currentCusp) || (nodeLon < nextCusp)) { house = i + 1; break; }
  } else {
    if (nodeLon >= currentCusp && nodeLon < nextCusp) { house = i + 1; break; }
  }
}
```
with `house` initialized to 0; one revision additionally recovers
`if (house === 0) house = 1;`. -/

/-- `cusps[i]` (out-of-range indices, which the loop never produces for a
12-element array, default to 0). -/
def cuspAt (cusps : List ℚ) (i : ℕ) : ℚ := cusps.getD i 0

/-- `nextCusp = (i === 11) ? cusps[0] : cusps[i + 1]`. -/
def nextCuspAt (cusps : List ℚ) (i : ℕ) : ℚ :=
  if i = 11 then cuspAt cusps 0 else cuspAt cusps (i + 1)

/-- Membership of a longitude in the span of house `i+1`: the wrapping test
`longitude >= start || longitude < end` when `end < start`, the half-open
test `start <= longitude && longitude < end` otherwise. -/
def SpanContains (cusps : List ℚ) (i : ℕ) (lon : ℚ) : Prop :=
  if nextCuspAt cusps i < cuspAt cusps i then
    cuspAt cusps i ≤ lon ∨ lon < nextCuspAt cusps i
  else
    cuspAt cusps i ≤ lon ∧ lon < nextCuspAt cusps i

instance (cusps : List ℚ) (i : ℕ) (lon : ℚ) : Decidable (SpanContains cusps i lon) := by
  unfold SpanContains; infer_instance

/-- The search loop from index `i` with the given remaining iteration count:
the first matching span yields `i + 1`, exhaustion yields 0. -/
def houseGo (cusps : List ℚ) (lon : ℚ) : ℕ → ℕ → ℕ
  | _, 0 => 0
  | i, Nat.succ fuel =>
    if SpanContains cusps i lon then i + 1 else houseGo cusps lon (i + 1) fuel

/-- The handler's house loop over `i = 0 … 11` (`house` remains 0 when no
span matches). -/
def classifyHouse (cusps : List ℚ) (lon : ℚ) : ℕ := houseGo cusps lon 0 12

/-- The loop followed by the `if (house === 0) house = 1;` fallback. -/
def classifyHouseTotal (cusps : List ℚ) (lon : ℚ) : ℕ :=
  if classifyHouse cusps lon = 0 then 1 else classifyHouse cusps lon

/-- A concrete well-formed cusp set whose house-12 span is [350°, 5°). -/
def demoCusps : List ℚ := [5, 35, 65, 95, 125, 155, 185, 215, 245, 275, 305, 350]

/-! ### Response formatting of the node position

```
const degrees = Math.floor(nodeLon % 30);
const minutes = Math.round((nodeLon % 1) * 60);
```
-/

/-- JavaScript `x % y` for `x ≥ 0, y > 0` (the only use sites; both operands
are non-negative there). -/
def jsMod (x y : ℚ) : ℚ := x - y * Int.floor (x / y)

/-- `Math.floor(nodeLon % 30)`: the whole-degree position within the sign. -/
def responseDegrees (lon : ℚ) : ℤ := Int.floor (jsMod lon 30)

/-- `Math.round((nodeLon % 1) * 60)`: the whole-minute position
(`Math.round x = ⌊x + 1/2⌋` for non-negative `x`). -/
def responseMinutes (lon : ℚ) : ℤ := Int.floor (jsMod lon 1 * 60 + 1/2)

/-! ### Lemmas about the hour-normalization loops -/

theorem hourUp_step {x : ℚ} (h : x < 0) :
    hourUp x = ((hourUp (x + 24)).1, (hourUp (x + 24)).2 - 1) := by
  rw [hourUp]; simp [h]

theorem hourUp_base {x : ℚ} (h : 0 ≤ x) : hourUp x = (x, 0) := by
  rw [hourUp]; simp [not_lt.mpr h]

theorem hourUp_spec (x : ℚ) :
    (hourUp x).1 = x - 24 * (hourUp x).2 ∧ 0 ≤ (hourUp x).1 ∧
      (x < 24 → (hourUp x).1 < 24) := by
  induction x using hourUp.induct with
  | case1 x h ih =>
    rw [hourUp_step h]
    refine ⟨?_, ih.2.1, fun _ => ih.2.2 (by linarith)⟩
    have h1 := ih.1
    push_cast
    push_cast at h1
    linarith
  | case2 x h =>
    rw [hourUp_base (not_lt.mp h)]
    exact ⟨by push_cast; ring, not_lt.mp h, fun hx => hx⟩

theorem hourDown_step {x : ℚ} (h : 24 ≤ x) :
    hourDown x = ((hourDown (x - 24)).1, (hourDown (x - 24)).2 + 1) := by
  rw [hourDown]; simp [h]

theorem hourDown_base {x : ℚ} (h : x < 24) : hourDown x = (x, 0) := by
  rw [hourDown]; simp [not_le.mpr h]

theorem hourDown_spec (x : ℚ) :
    (hourDown x).1 = x - 24 * (hourDown x).2 ∧ (hourDown x).1 < 24 ∧
      (0 ≤ x → 0 ≤ (hourDown x).1) := by
  induction x using hourDown.induct with
  | case1 x h ih =>
    rw [hourDown_step h]
    refine ⟨?_, ih.2.1, fun _ => ih.2.2 (by linarith)⟩
    have h1 := ih.1
    push_cast
    push_cast at h1
    linarith
  | case2 x h =>
    rw [hourDown_base (not_le.mp h)]
    exact ⟨by push_cast; ring, not_le.mp h, fun hx => hx⟩

/-! ### Lemmas about the calendar arithmetic -/

theorem daysInMonth_pos (y : ℤ) (m : ℕ) (h1 : 1 ≤ m) (h2 : m ≤ 12) :
    1 ≤ daysInMonth y m := by
  interval_cases m <;> simp [daysInMonth] <;> split <;> omega

theorem daysInMonth_twelve (y : ℤ) : daysInMonth y 12 = 31 := by
  simp [daysInMonth]

theorem validDate_mk (y : ℤ) (m d : ℕ) :
    ValidDate ⟨y, m, d⟩ ↔ 1 ≤ m ∧ m ≤ 12 ∧ 1 ≤ d ∧ d ≤ daysInMonth y m := Iff.rfl

theorem valid_nextDay {d : CalDate} (h : ValidDate d) : ValidDate (nextDay d) := by
  obtain ⟨y, m, day⟩ := d
  rw [validDate_mk] at h
  obtain ⟨h1, h2, h3, h4⟩ := h
  unfold nextDay
  dsimp only
  split_ifs with ha hb
  · rw [validDate_mk]; exact ⟨h1, h2, by omega, by omega⟩
  · rw [validDate_mk]
    exact ⟨by omega, by omega, le_refl 1, daysInMonth_pos _ _ (by omega) (by omega)⟩
  · rw [validDate_mk]
    exact ⟨by omega, by omega, le_refl 1, daysInMonth_pos _ _ (by omega) (by omega)⟩

theorem valid_prevDay {d : CalDate} (h : ValidDate d) : ValidDate (prevDay d) := by
  obtain ⟨y, m, day⟩ := d
  rw [validDate_mk] at h
  obtain ⟨h1, h2, h3, h4⟩ := h
  unfold prevDay
  dsimp only
  split_ifs with ha hb
  · rw [validDate_mk]; exact ⟨h1, h2, by omega, by omega⟩
  · rw [validDate_mk]
    exact ⟨by omega, by omega, daysInMonth_pos _ _ (by omega) (by omega), le_refl _⟩
  · rw [validDate_mk]
    exact ⟨by omega, by omega, by omega, by rw [daysInMonth_twelve]⟩

theorem prevDay_nextDay {d : CalDate} (h : ValidDate d) : prevDay (nextDay d) = d := by
  obtain ⟨y, m, day⟩ := d
  rw [validDate_mk] at h
  obtain ⟨h1, h2, h3, h4⟩ := h
  unfold nextDay
  dsimp only
  split_ifs with ha hb
  · unfold prevDay
    dsimp only
    rw [if_pos (by omega)]
    simp only [Nat.add_sub_cancel]
  · unfold prevDay
    dsimp only
    rw [if_neg (by omega), if_pos (by omega)]
    simp only [Nat.add_sub_cancel, CalDate.mk.injEq, true_and]
    omega
  · have hm : m = 12 := by omega
    subst hm
    rw [daysInMonth_twelve] at h4 ha
    unfold prevDay
    dsimp only
    rw [if_neg (by omega), if_neg (by omega)]
    simp only [add_sub_cancel_right, CalDate.mk.injEq, true_and]
    omega

theorem nextDay_prevDay {d : CalDate} (h : ValidDate d) : nextDay (prevDay d) = d := by
  obtain ⟨y, m, day⟩ := d
  rw [validDate_mk] at h
  obtain ⟨h1, h2, h3, h4⟩ := h
  unfold prevDay
  dsimp only
  split_ifs with ha hb
  · unfold nextDay
    dsimp only
    rw [if_pos (by omega)]
    simp only [CalDate.mk.injEq, true_and]
    omega
  · have hd : day = 1 := by omega
    unfold nextDay
    dsimp only
    rw [if_neg (by omega), if_pos (by omega)]
    simp only [CalDate.mk.injEq, true_and]
    omega
  · have hd : day = 1 := by omega
    have hm : m = 1 := by omega
    unfold nextDay
    dsimp only
    rw [if_neg (by rw [daysInMonth_twelve]; omega), if_neg (by omega)]
    simp only [CalDate.mk.injEq]
    omega

theorem valid_addDaysNat {d : CalDate} (h : ValidDate d) (k : ℕ) :
    ValidDate (addDaysNat d k) := by
  induction k with
  | zero => exact h
  | succ k ih => exact valid_nextDay ih

theorem valid_subDaysNat (k : ℕ) : ∀ {d : CalDate}, ValidDate d →
    ValidDate (subDaysNat d k) := by
  induction k with
  | zero => intro d h; exact h
  | succ k ih => intro d h; exact ih (valid_prevDay h)

theorem subDaysNat_addDaysNat (k : ℕ) {d : CalDate} (h : ValidDate d) :
    subDaysNat (addDaysNat d k) k = d := by
  induction k with
  | zero => rfl
  | succ k ih =>
    show subDaysNat (prevDay (nextDay (addDaysNat d k))) k = d
    rw [prevDay_nextDay (valid_addDaysNat h k)]
    exact ih

theorem addDaysNat_subDaysNat (k : ℕ) : ∀ {d : CalDate}, ValidDate d →
    addDaysNat (subDaysNat d k) k = d := by
  induction k with
  | zero => intro d _; rfl
  | succ k ih =>
    intro d h
    show nextDay (addDaysNat (subDaysNat (prevDay d) k) k) = d
    rw [ih (valid_prevDay h)]
    exact nextDay_prevDay h

theorem valid_addDays {d : CalDate} (h : ValidDate d) (n : ℤ) :
    ValidDate (addDays d n) := by
  unfold addDays
  split_ifs
  · exact valid_addDaysNat h _
  · exact valid_subDaysNat _ h

theorem addDays_cancel {d : CalDate} (h : ValidDate d) (n : ℤ) :
    addDays (addDays d n) (-n) = d := by
  rcases le_or_lt 0 n with hn | hn
  · rcases eq_or_lt_of_le hn with he | hpos
    · subst he; simp [addDays, addDaysNat]
    · have h1 : ¬ (0 ≤ -n) := by omega
      unfold addDays
      rw [if_pos hn, if_neg h1]
      have h2 : (-(-n)).toNat = n.toNat := by omega
      rw [h2]
      exact subDaysNat_addDaysNat n.toNat h
  · have h1 : ¬ (0 ≤ n) := by omega
    have h2 : (0 : ℤ) ≤ -n := by omega
    unfold addDays
    rw [if_neg h1, if_pos h2]
    exact addDaysNat_subDaysNat (-n).toNat h

/-! ### Lemmas about the assembled conversion -/

theorem convertToUT_hour (y : ℤ) (m d : ℕ) (H O : ℚ) :
    (convertToUT y m d H O).hour = H - O - 24 * (convertToUT y m d H O).dayAdj
    ∧ 0 ≤ (convertToUT y m d H O).hour ∧ (convertToUT y m d H O).hour < 24 := by
  obtain ⟨hu1, hu2, _⟩ := hourUp_spec (H - O)
  obtain ⟨hd1, hd2, hd3⟩ := hourDown_spec (hourUp (H - O)).1
  refine ⟨?_, hd3 hu2, hd2⟩
  show (hourDown (hourUp (H - O)).1).1 =
    H - O - 24 * (((hourUp (H - O)).2 + (hourDown (hourUp (H - O)).1).2 : ℤ) : ℚ)
  rw [hd1, hu1]
  push_cast
  ring

theorem convertToUT_date (y : ℤ) (m d : ℕ) (H O : ℚ) :
    (⟨(convertToUT y m d H O).year, (convertToUT y m d H O).month,
      (convertToUT y m d H O).day⟩ : CalDate)
      = addDays ⟨jsDateYear y, m, d⟩ (convertToUT y m d H O).dayAdj := rfl

/-! ### Lemmas about the house-classification loop -/

theorem houseGo_found (cusps : List ℚ) (lon : ℚ) :
    ∀ (fuel i j : ℕ), i ≤ j → j < i + fuel → SpanContains cusps j lon →
      (∀ k, i ≤ k → k < j → ¬ SpanContains cusps k lon) →
      houseGo cusps lon i fuel = j + 1 := by
  intro fuel
  induction fuel with
  | zero => intro i j h1 h2 _ _; omega
  | succ fuel ih =>
    intro i j h1 h2 hj hk
    show (if SpanContains cusps i lon then i + 1 else houseGo cusps lon (i + 1) fuel) = j + 1
    by_cases hi : SpanContains cusps i lon
    · have hij : i = j := by
        by_contra hne
        exact hk i le_rfl (by omega) hi
      rw [if_pos hi, hij]
    · have hij : i ≠ j := fun he => hi (he ▸ hj)
      rw [if_neg hi]
      exact ih (i + 1) j (by omega) (by omega) hj (fun k hk1 hk2 => hk k (by omega) hk2)

theorem houseGo_le (cusps : List ℚ) (lon : ℚ) :
    ∀ (fuel i : ℕ), houseGo cusps lon i fuel ≤ i + fuel := by
  intro fuel
  induction fuel with
  | zero => intro i; simp [houseGo]
  | succ fuel ih =>
    intro i
    show (if SpanContains cusps i lon then i + 1 else houseGo cusps lon (i + 1) fuel) ≤ i + (fuel + 1)
    by_cases hi : SpanContains cusps i lon
    · rw [if_pos hi]; omega
    · rw [if_neg hi]
      have := ih (i + 1)
      omega

theorem houseGo_none (cusps : List ℚ) (lon : ℚ) :
    ∀ (fuel i : ℕ), (∀ k, i ≤ k → k < i + fuel → ¬ SpanContains cusps k lon) →
      houseGo cusps lon i fuel = 0 := by
  intro fuel
  induction fuel with
  | zero => intro i _; rfl
  | succ fuel ih =>
    intro i hk
    show (if SpanContains cusps i lon then i + 1 else houseGo cusps lon (i + 1) fuel) = 0
    rw [if_neg (hk i le_rfl (by omega))]
    exact ih (i + 1) (fun k h1 h2 => hk k (by omega) (by omega))

/-! ### Lemmas about the response formatting -/

theorem jsMod_bounds {x y : ℚ} (hx : 0 ≤ x) (hy : 0 < y) :
    0 ≤ jsMod x y ∧ jsMod x y < y := by
  have he : jsMod x y = y * Int.fract (x / y) := by
    unfold jsMod Int.fract
    field_simp
  constructor
  · rw [he]
    exact mul_nonneg (le_of_lt hy) (Int.fract_nonneg _)
  · rw [he]
    calc y * Int.fract (x / y) < y * 1 := by
          exact mul_lt_mul_of_pos_left (Int.fract_lt_one _) hy
      _ = y := mul_one y

/-! ### Lemmas about digit-only offset strings -/

theorem isDigit_not_upper {c : Char} (h : isDigitChar c = true) :
    isUpperChar c = false := by
  simp only [isDigitChar, Bool.and_eq_true, decide_eq_true_eq] at h
  apply Bool.eq_false_iff.mpr
  intro hu
  simp only [isUpperChar, Bool.and_eq_true, decide_eq_true_eq] at hu
  exact absurd (hu.1.trans h.2) (by decide)

theorem isDigit_ne_plus {c : Char} (h : isDigitChar c = true) : c ≠ '+' := by
  simp only [isDigitChar, Bool.and_eq_true, decide_eq_true_eq] at h
  rintro rfl
  revert h
  decide

theorem isDigit_ne_minus {c : Char} (h : isDigitChar c = true) : c ≠ '-' := by
  simp only [isDigitChar, Bool.and_eq_true, decide_eq_true_eq] at h
  rintro rfl
  revert h
  decide

theorem takeWhile_of_all {p : Char → Bool} :
    ∀ {l : List Char}, (∀ c ∈ l, p c = true) → l.takeWhile p = l := by
  intro l
  induction l with
  | nil => intro _; rfl
  | cons c rest ih =>
    intro h
    rw [List.takeWhile_cons_of_pos (h c (by simp))]
    rw [ih (fun x hx => h x (by simp [hx]))]

theorem tryComplexAt_digits {c : Char} {rest : List Char}
    (h : isDigitChar c = true) : tryComplexAt (c :: rest) = none := by
  unfold tryComplexAt
  rw [List.takeWhile_cons_of_neg (by simp [isDigit_not_upper h])]
  simp only [List.length_nil, List.drop_zero]
  rw [if_neg (by simp [isDigit_ne_plus h, isDigit_ne_minus h])]

theorem complexSearch_digits :
    ∀ {l : List Char}, (∀ c ∈ l, isDigitChar c = true) → complexSearch l = none := by
  intro l
  induction l with
  | nil => intro _; rfl
  | cons c rest ih =>
    intro h
    show (match tryComplexAt (c :: rest) with
          | some m => some m
          | none => complexSearch rest) = none
    rw [tryComplexAt_digits (h c (by simp))]
    exact ih (fun x hx => h x (by simp [hx]))

theorem simpleParse_digits {c : Char} {rest : List Char}
    (h : ∀ x ∈ c :: rest, isDigitChar x = true) :
    simpleParse (c :: rest) = some (true, c :: rest) := by
  simp only [simpleParse]
  rw [if_neg (isDigit_ne_plus (h c (by simp))), if_neg (isDigit_ne_minus (h c (by simp))),
    if_pos (List.all_eq_true.mpr h)]

theorem tryComplexAt_plus {ds : List Char} (hne : ds ≠ [])
    (h : ∀ x ∈ ds, isDigitChar x = true) :
    tryComplexAt ('+' :: ds) = some ⟨[], true, ds, none⟩ := by
  unfold tryComplexAt
  rw [List.takeWhile_cons_of_neg (by decide)]
  simp only [List.length_nil, List.drop_zero]
  rw [if_pos (by decide)]
  rw [takeWhile_of_all h]
  rw [if_neg (by simpa [List.isEmpty_iff] using hne)]
  rw [List.drop_length]
  simp [colonMinutes]

/-! ### Claim C1 -/

/-- C1: for every longitude in [0,360) and 12-element cusp array, the house
loop tests houses in cusp order 1 through 12 and assigns the longitude to the
first house whose span contains it (wrapping span `end < start` contains the
longitude iff `longitude ≥ start ∨ longitude < end`, a non-wrapping span iff
`start ≤ longitude < end`); with cusps making house 12's span [350°, 5°),
longitudes 358° and 2° classify into house 12 and 10° does not (it lands in
house 1). -/
theorem c1_house_first_match (cusps : List ℚ) (lon : ℚ)
    (hlen : cusps.length = 12) (hlon0 : 0 ≤ lon) (hlon1 : lon < 360)
    (i : ℕ) (hi : i < 12) (hmem : SpanContains cusps i lon)
    (hfirst : ∀ j, j < i → ¬ SpanContains cusps j lon) :
    classifyHouse cusps lon = i + 1
    ∧ classifyHouse demoCusps 358 = 12
    ∧ classifyHouse demoCusps 2 = 12
    ∧ classifyHouse demoCusps 10 = 1 := by
  refine ⟨?_, by decide, by decide, by decide⟩
  exact houseGo_found cusps lon 12 0 i (Nat.zero_le i) (by omega) hmem
    (fun k _ hk => hfirst k hk)

/-- Witness for C1: the wraparound cusp set at longitude 358°, house 12. -/
theorem c1_house_first_match_witness :
    (demoCusps.length = 12 ∧ (0:ℚ) ≤ 358 ∧ (358:ℚ) < 360 ∧ 11 < 12
      ∧ SpanContains demoCusps 11 358 ∧ (∀ j, j < 11 → ¬ SpanContains demoCusps j 358))
    ∧ classifyHouse demoCusps 358 = 11 + 1 := by
  refine ⟨⟨by decide, by decide, by decide, by decide, by decide, by decide⟩, ?_⟩
  exact (c1_house_first_match demoCusps 358 (by decide) (by decide) (by decide) 11 (by decide)
    (by decide) (by decide)).1

/-! ### Claim C8 -/

/-- C8: with the recovered fallback (`if (house === 0) house = 1;`), the
classifier's result is always in [1,12], and when no span's membership test
matches it returns the defined fallback house 1 rather than 0. -/
theorem c8_classifier_range_fallback (cusps : List ℚ) (lon : ℚ)
    (hlen : cusps.length = 12) (hlon0 : 0 ≤ lon) (hlon1 : lon < 360) :
    1 ≤ classifyHouseTotal cusps lon ∧ classifyHouseTotal cusps lon ≤ 12
    ∧ ((∀ i, i < 12 → ¬ SpanContains cusps i lon) → classifyHouseTotal cusps lon = 1) := by
  have hle : classifyHouse cusps lon ≤ 12 := houseGo_le cusps lon 12 0
  refine ⟨?_, ?_, ?_⟩
  · unfold classifyHouseTotal
    split_ifs with h <;> omega
  · unfold classifyHouseTotal
    split_ifs with h <;> omega
  · intro hall
    have h0 : classifyHouse cusps lon = 0 :=
      houseGo_none cusps lon 12 0 (fun k _ hk2 => hall k (by omega))
    unfold classifyHouseTotal
    rw [if_pos h0]

/-- Witness for C8: a degenerate all-zero cusp array matches no span and
falls back to house 1. -/
theorem c8_classifier_range_fallback_witness :
    ((List.replicate 12 (0:ℚ)).length = 12 ∧ (0:ℚ) ≤ 5 ∧ (5:ℚ) < 360
      ∧ (∀ i, i < 12 → ¬ SpanContains (List.replicate 12 (0:ℚ)) i 5))
    ∧ classifyHouseTotal (List.replicate 12 (0:ℚ)) 5 = 1 := by
  refine ⟨⟨by decide, by decide, by decide, by decide⟩, ?_⟩
  exact (c8_classifier_range_fallback (List.replicate 12 0) 5 (by decide) (by decide)
    (by decide)).2.2 (by decide)

/-! ### Claim C3 -/

/-- C3: when an explicit offset string parses in an accepted shape, the
resulting resolution is a function of the string alone: two requests with the
same explicit string but arbitrary different coordinates and dates get the
same result, and the coordinate-derived lookup does not influence it. -/
theorem c3_explicit_offset_sole_input (s : String) (r : TZResult)
    (hp : parseExplicitTz s = some r)
    (lon1 lat1 : ℚ) (y1 m1 d1 : ℕ) (hr1 : ℚ)
    (lon2 lat2 : ℚ) (y2 m2 d2 : ℕ) (hr2 : ℚ) :
    processTimezone lon1 lat1 y1 m1 d1 hr1 (some s) = r
    ∧ processTimezone lon2 lat2 y2 m2 d2 hr2 (some s) = r := by
  constructor
  · simp only [processTimezone, hp]
  · simp only [processTimezone, hp]

/-- Witness for C3: the string `"EST+5:00"` yields offset −5 at two very
different coordinate/date pairs. -/
theorem c3_explicit_offset_sole_input_witness :
    parseExplicitTz "EST+5:00" = some ⟨"EST", -5, false⟩
    ∧ processTimezone 139 35 2000 6 15 12 (some "EST+5:00") = ⟨"EST", -5, false⟩
    ∧ processTimezone (-72) 41 1971 4 18 (21/4) (some "EST+5:00") = ⟨"EST", -5, false⟩ := by
  have hc : complexSearch "EST+5:00".data
      = some ⟨['E', 'S', 'T'], true, ['5'], some ['0', '0']⟩ := by decide
  have hp : parseExplicitTz "EST+5:00" = some ⟨"EST", -5, false⟩ := by
    simp [parseExplicitTz, hc, matchOffset, digitsVal]
  have h2 := c3_explicit_offset_sole_input "EST+5:00" ⟨"EST", -5, false⟩ hp
    139 35 2000 6 15 12 (-72) 41 1971 4 18 (21/4)
  exact ⟨hp, h2.1, h2.2⟩

/-! ### Claim C4 -/

/-- C4 counterexample: an explicit offset string matching neither shape
(`"pst"`, lowercase) does NOT surface a parse error — the resolver silently
falls back to coordinate-derived resolution (here America/New_York), refuting
the claim that such a request fails. -/
theorem c4_counterexample_unparseable_tz :
    parseExplicitTz "pst" = none
    ∧ processTimezone (-72) 41 1971 4 18 5 (some "pst")
        = processTimezone (-72) 41 1971 4 18 5 none
    ∧ (processTimezone (-72) 41 1971 4 18 5 (some "pst")).id = "America/New_York"
    ∧ (processTimezone (-72) 41 1971 4 18 5 (some "pst")).id ≠ "UTC" := by
  refine ⟨by decide, ?_, by decide, by decide⟩
  simp only [processTimezone, show parseExplicitTz "pst" = none by decide]

/-- C4 amended: if an explicit offset string matches neither accepted
shape, the resolver silently falls back to coordinate-derived resolution,
identical to omitting the parameter; no error is surfaced and no UTC default
is substituted. -/
theorem c4_amended_silent_fallback (s : String) (hbad : parseExplicitTz s = none)
    (lon lat : ℚ) (y m d : ℕ) (hq : ℚ) :
    processTimezone lon lat y m d hq (some s) = processTimezone lon lat y m d hq none := by
  simp only [processTimezone, hbad]

/-- Witness for the amended C4 at the unparseable string `"pst"`. -/
theorem c4_amended_silent_fallback_witness :
    parseExplicitTz "pst" = none
    ∧ processTimezone 2 48 1985 7 1 10 (some "pst") = processTimezone 2 48 1985 7 1 10 none := by
  exact ⟨by decide, c4_amended_silent_fallback "pst" (by decide) 2 48 1985 7 1 10⟩

/-! ### Claim C10 -/

/-- C10: the two accepted explicit-offset shapes denote opposite
directions: for a numeral `n` (a nonempty digit string), the signed form
`"+n"` matches the complex shape and produces offset `-n`, while the bare
form `"n"` matches the numeric shape and produces offset `+n`. -/
theorem c10_signed_vs_bare_numeral (ds : List Char) (hne : ds ≠ [])
    (hdig : ∀ c ∈ ds, isDigitChar c = true) :
    parseExplicitTz (String.mk ('+' :: ds)) = some ⟨"UTC", -(digitsVal ds : ℚ), false⟩
    ∧ parseExplicitTz (String.mk ds) = some ⟨"UTC", (digitsVal ds : ℚ), false⟩ := by
  constructor
  · have hc : complexSearch (String.mk ('+' :: ds)).data
        = some (⟨[], true, ds, none⟩ : TzMatch) := by
      show (match tryComplexAt ('+' :: ds) with
            | some m => some m
            | none => complexSearch ds) = some (⟨[], true, ds, none⟩ : TzMatch)
      rw [tryComplexAt_plus hne hdig]
    simp only [parseExplicitTz, hc]
    simp [matchOffset]
  · obtain ⟨c, rest, rfl⟩ := List.exists_cons_of_ne_nil hne
    have hc : complexSearch (String.mk (c :: rest)).data = none :=
      complexSearch_digits hdig
    have hs : simpleParse (String.mk (c :: rest)).data = some (true, c :: rest) :=
      simpleParse_digits hdig
    simp only [parseExplicitTz, hc, hs]
    simp

/-- Witness for C10 at the numeral 7: `"+7"` gives −7, `"7"` gives +7. -/
theorem c10_signed_vs_bare_numeral_witness :
    ((['7'] : List Char) ≠ [] ∧ (∀ c ∈ (['7'] : List Char), isDigitChar c = true)
      ∧ digitsVal ['7'] = 7)
    ∧ (parseExplicitTz "+7" = some ⟨"UTC", -(digitsVal ['7'] : ℚ), false⟩
       ∧ parseExplicitTz "7" = some ⟨"UTC", (digitsVal ['7'] : ℚ), false⟩) := by
  refine ⟨⟨by decide, by decide, by decide⟩, ?_⟩
  exact c10_signed_vs_bare_numeral ['7'] (by decide) (by decide)

/-! ### Claim C9 -/

/-- C9 counterexample: at node longitude 10.999° the response's minutes
field is `Math.round(0.999 * 60) = 60`, refuting the claim that minutes never
equal 60. -/
theorem c9_counterexample_minutes_sixty :
    ((0:ℚ) ≤ 10999/1000 ∧ (10999/1000 : ℚ) < 360)
    ∧ responseMinutes (10999/1000) = 60 := by
  constructor
  · constructor <;> norm_num
  · norm_num [responseMinutes, jsMod]

/-- C9 amended: for every node longitude in [0,360), the whole-degree
position is in 0–29 and the whole-minute position is in 0–60 (60 is attained
when the fractional degree is at least 59.5/60, because the source rounds
with `Math.round` instead of flooring/carrying). -/
theorem c9_response_field_ranges (lon : ℚ) (h0 : 0 ≤ lon) (h1 : lon < 360) :
    0 ≤ responseDegrees lon ∧ responseDegrees lon ≤ 29
    ∧ 0 ≤ responseMinutes lon ∧ responseMinutes lon ≤ 60 := by
  obtain ⟨hm0, hm1⟩ := jsMod_bounds (x := lon) (y := 30) h0 (by norm_num)
  obtain ⟨hf0, hf1⟩ := jsMod_bounds (x := lon) (y := 1) h0 (by norm_num)
  refine ⟨Int.floor_nonneg.mpr hm0, ?_, ?_, ?_⟩
  · have h30 : responseDegrees lon < 30 := by
      unfold responseDegrees
      exact Int.floor_lt.mpr (by exact_mod_cast hm1)
    omega
  · unfold responseMinutes
    apply Int.floor_nonneg.mpr
    nlinarith [hf0]
  · have h61 : responseMinutes lon < 61 := by
      unfold responseMinutes
      apply Int.floor_lt.mpr
      push_cast
      nlinarith [hf1]
    omega

/-- Witness for the amended C9 at longitude 100°. -/
theorem c9_response_field_ranges_witness :
    ((0:ℚ) ≤ 100 ∧ (100:ℚ) < 360)
    ∧ (0 ≤ responseDegrees 100 ∧ responseDegrees 100 ≤ 29
       ∧ 0 ≤ responseMinutes 100 ∧ responseMinutes 100 ≤ 60) := by
  exact ⟨⟨by decide, by decide⟩, c9_response_field_ranges 100 (by decide) (by decide)⟩

/-! ### Claim C2 -/

/-- C2: for year=1971, month=4, day=18, hour=5.25, lat=41.7759301,
lon=-72.5215008 and no explicit tz, the resolver maps the coordinate to
America/New_York, the 1966–1986 era's last Sunday of April 1971 is the 25th,
so DST does not apply on April 18; the offset is the Eastern standard −5 and
the UT conversion yields hour 10.25 on the same calendar day. -/
theorem c2_end_to_end_1971 :
    processTimezone (-725215008/10000000) (417759301/10000000) 1971 4 18 (21/4) none
      = ⟨"America/New_York", -5, false⟩
    ∧ lastDowDay 1971 4 0 = 25
    ∧ usDstOffset 1971 4 18 = 0
    ∧ getStandardOffset "America/New_York" = -5
    ∧ convertToUT 1971 4 18 (21/4) (-5) = ⟨1971, 4, 18, 41/4, 0⟩ := by
  refine ⟨?_, by decide, by decide, by decide, ?_⟩
  · show coordResolve (-725215008/10000000) (417759301/10000000) 1971 4 18 = _
    have h1 : getLikelyTimezoneId (-725215008/10000000) (417759301/10000000)
        = "America/New_York" := by
      norm_num [getLikelyTimezoneId]
    have h2 : manualDstOffset "America/New_York" 1971 4 18 = 0 := by decide
    simp [coordResolve, h1, h2, getStandardOffset]
  · norm_num [convertToUT, hourUp_base, hourDown_base, addDays, addDaysNat, jsDateYear]

/-! ### Claim C6 -/

/-- C6: a coordinate-derived resolution for the Eastern-US zone outside
DST has offset −5 with `isDST = false` (sign convention local = UTC +
offset), and the subsequent conversion computes `utHour = civil.hour -
offset` (normalized), i.e. UT hour = civil hour + 5 up to the whole-day
carry. -/
theorem c6_offset_sign_convention (lon lat : ℚ) (y m d : ℕ)
    (hzone : getLikelyTimezoneId lon lat = "America/New_York")
    (hnodst : usDstOffset y m d = 0)
    (y2 : ℤ) (m2 d2 : ℕ) (H : ℚ) :
    (processTimezone lon lat y m d H none).offset = -5
    ∧ (processTimezone lon lat y m d H none).isDST = false
    ∧ (convertToUT y2 m2 d2 H (-5)).hour
        = H + 5 - 24 * (convertToUT y2 m2 d2 H (-5)).dayAdj := by
  have hman : manualDstOffset "America/New_York" y m d = usDstOffset y m d := by
    simp [manualDstOffset]
  refine ⟨?_, ?_, ?_⟩
  · show (coordResolve lon lat y m d).offset = -5
    simp [coordResolve, hzone, hman, hnodst, getStandardOffset]
  · show (coordResolve lon lat y m d).isDST = false
    simp [coordResolve, hzone, hman, hnodst]
  · have hh := (convertToUT_hour y2 m2 d2 H (-5)).1
    rw [hh]
    ring

/-- Witness for C6 at a Connecticut-like coordinate on 1971-04-18. -/
theorem c6_offset_sign_convention_witness :
    (getLikelyTimezoneId (-72) 41 = "America/New_York" ∧ usDstOffset 1971 4 18 = 0)
    ∧ ((processTimezone (-72) 41 1971 4 18 (21/4) none).offset = -5
       ∧ (processTimezone (-72) 41 1971 4 18 (21/4) none).isDST = false
       ∧ (convertToUT 1971 4 18 (21/4) (-5)).hour
           = 21/4 + 5 - 24 * (convertToUT 1971 4 18 (21/4) (-5)).dayAdj) := by
  exact ⟨⟨by decide, by decide⟩,
    c6_offset_sign_convention (-72) 41 1971 4 18 (by decide) (by decide) 1971 4 18 (21/4)⟩

/-! ### Claim C7 -/

/-- C7: for the Eastern-US zone in 2023, March 12 (the second Sunday) is
DST-active and March 11 is not; and under every US and European era rule the
transition start day itself is already DST (`day >= dstStartDay`) and the
end day is already standard time (`day < dstEndDay`). -/
theorem c7_dst_transition_boundaries :
    manualDstOffset "America/New_York" 2023 3 12 = 1
    ∧ manualDstOffset "America/New_York" 2023 3 11 = 0
    ∧ nthDowDay 2023 3 0 2 = 12
    ∧ (∀ y m d, manualDstOffset "America/New_York" y m d = usDstOffset y m d)
    ∧ (∀ y, 1966 ≤ y → y ≤ 1986 →
        usDstOffset y 4 (lastDowDay y 4 0) = 1 ∧ usDstOffset y 10 (lastDowDay y 10 0) = 0)
    ∧ (∀ y, 1987 ≤ y → y ≤ 2006 →
        usDstOffset y 4 (nthDowDay y 4 0 1) = 1 ∧ usDstOffset y 10 (lastDowDay y 10 0) = 0)
    ∧ (∀ y, 2007 ≤ y →
        usDstOffset y 3 (nthDowDay y 3 0 2) = 1 ∧ usDstOffset y 11 (nthDowDay y 11 0 1) = 0)
    ∧ (∀ y, 1980 ≤ y → y ≤ 1996 →
        euDstOffset y 3 (lastDowDay y 3 0) = 1 ∧ euDstOffset y 9 (lastDowDay y 9 0) = 0)
    ∧ (∀ y, 1997 ≤ y →
        euDstOffset y 3 (lastDowDay y 3 0) = 1 ∧ euDstOffset y 10 (lastDowDay y 10 0) = 0) := by
  refine ⟨by decide, by decide, by decide, ?_, ?_, ?_, ?_, ?_, ?_⟩
  · intro y m d
    simp [manualDstOffset]
  · intro y h1 h2
    have hn : ¬ (y < 1966) := by omega
    constructor
    · unfold usDstOffset
      rw [if_neg hn, if_pos h2, if_pos (Or.inr (Or.inl ⟨rfl, le_refl _⟩))]
    · unfold usDstOffset
      rw [if_neg hn, if_pos h2, if_neg (by rintro (⟨_, hx⟩ | ⟨hx, _⟩ | ⟨_, hx⟩) <;> omega)]
  · intro y h1 h2
    have hn : ¬ (y < 1966) := by omega
    have hn2 : ¬ (y ≤ 1986) := by omega
    constructor
    · unfold usDstOffset
      rw [if_neg hn, if_neg hn2, if_pos h2, if_pos (Or.inr (Or.inl ⟨rfl, le_refl _⟩))]
    · unfold usDstOffset
      rw [if_neg hn, if_neg hn2, if_pos h2,
        if_neg (by rintro (⟨_, hx⟩ | ⟨hx, _⟩ | ⟨_, hx⟩) <;> omega)]
  · intro y h1
    have hn : ¬ (y < 1966) := by omega
    have hn2 : ¬ (y ≤ 1986) := by omega
    have hn3 : ¬ (y ≤ 2006) := by omega
    constructor
    · unfold usDstOffset
      rw [if_neg hn, if_neg hn2, if_neg hn3, if_pos (Or.inr (Or.inl ⟨rfl, le_refl _⟩))]
    · unfold usDstOffset
      rw [if_neg hn, if_neg hn2, if_neg hn3,
        if_neg (by rintro (⟨_, hx⟩ | ⟨hx, _⟩ | ⟨_, hx⟩) <;> omega)]
  · intro y h1 h2
    have hn : ¬ (y < 1980) := by omega
    constructor
    · unfold euDstOffset
      rw [if_neg hn, if_pos h2, if_pos (Or.inr (Or.inl ⟨rfl, le_refl _⟩))]
    · unfold euDstOffset
      rw [if_neg hn, if_pos h2, if_neg (by rintro (⟨_, hx⟩ | ⟨hx, _⟩ | ⟨_, hx⟩) <;> omega)]
  · intro y h1
    have hn : ¬ (y < 1980) := by omega
    have hn2 : ¬ (y ≤ 1996) := by omega
    constructor
    · unfold euDstOffset
      rw [if_neg hn, if_neg hn2, if_pos (Or.inr (Or.inl ⟨rfl, le_refl _⟩))]
    · unfold euDstOffset
      rw [if_neg hn, if_neg hn2, if_neg (by rintro (⟨_, hx⟩ | ⟨hx, _⟩ | ⟨_, hx⟩) <;> omega)]

/-- Witness for C7's era clauses at year 1971 (start April 25, end
October 31). -/
theorem c7_dst_transition_boundaries_witness :
    (1966 ≤ 1971 ∧ 1971 ≤ 1986 ∧ lastDowDay 1971 4 0 = 25 ∧ lastDowDay 1971 10 0 = 31)
    ∧ (usDstOffset 1971 4 (lastDowDay 1971 4 0) = 1
       ∧ usDstOffset 1971 10 (lastDowDay 1971 10 0) = 0) := by
  exact ⟨⟨by decide, by decide, by decide, by decide⟩,
    c7_dst_transition_boundaries.2.2.2.2.1 1971 (by decide) (by decide)⟩

/-! ### Claim C5 -/

/-- C5 counterexample: the conversion is NOT inverted for every valid
Gregorian date: for year 50 the JavaScript `Date` constructor's two-digit
year rule makes the result date 1950-01-01 even with offset 0, so undoing
the (zero) day-shift does not reproduce the original date. -/
theorem c5_counterexample_two_digit_year :
    (ValidDate ⟨50, 1, 1⟩ ∧ (0:ℚ) ≤ 12 ∧ (12:ℚ) < 24)
    ∧ convertToUT 50 1 1 12 0 = ⟨1950, 1, 1, 12, 0⟩
    ∧ addDays ⟨(convertToUT 50 1 1 12 0).year, (convertToUT 50 1 1 12 0).month,
        (convertToUT 50 1 1 12 0).day⟩ (-(convertToUT 50 1 1 12 0).dayAdj)
        ≠ (⟨50, 1, 1⟩ : CalDate) := by
  have he : convertToUT 50 1 1 12 0 = ⟨1950, 1, 1, 12, 0⟩ := by
    norm_num [convertToUT, hourUp_base, hourDown_base, addDays, addDaysNat, jsDateYear]
  refine ⟨⟨by decide, by decide, by decide⟩, he, ?_⟩
  rw [he]
  simp [addDays, addDaysNat]

/-- C5 amended: for every civil hour H in [0,24), every offset O, and
every valid Gregorian date whose year is not in 0–99 (those years are
remapped to 1900+y by the `Date` constructor), the conversion is inverted by
adding O back and undoing the day-shift, the result hour is in [0,24), and
the result date is valid; in particular civil 2.0 with offset +5 gives UT
21.0 on the previous day and civil 22.0 with offset −5 gives UT 3.0 on the
next day. -/
theorem c5_ut_roundtrip (y : ℤ) (m d : ℕ) (H O : ℚ)
    (hy : y < 0 ∨ 100 ≤ y)
    (hv : ValidDate ⟨y, m, d⟩)
    (h0 : 0 ≤ H) (h24 : H < 24) :
    ((convertToUT y m d H O).hour + O + 24 * (convertToUT y m d H O).dayAdj = H
      ∧ addDays ⟨(convertToUT y m d H O).year, (convertToUT y m d H O).month,
          (convertToUT y m d H O).day⟩ (-(convertToUT y m d H O).dayAdj) = ⟨y, m, d⟩
      ∧ 0 ≤ (convertToUT y m d H O).hour ∧ (convertToUT y m d H O).hour < 24
      ∧ ValidDate ⟨(convertToUT y m d H O).year, (convertToUT y m d H O).month,
          (convertToUT y m d H O).day⟩)
    ∧ convertToUT 1971 4 18 2 5 = ⟨1971, 4, 17, 21, -1⟩
    ∧ convertToUT 1971 4 18 22 (-5) = ⟨1971, 4, 19, 3, 1⟩ := by
  have hjs : jsDateYear y = y := by
    unfold jsDateYear
    rw [if_neg (by omega)]
  obtain ⟨hh1, hh2, hh3⟩ := convertToUT_hour y m d H O
  have hdate := convertToUT_date y m d H O
  refine ⟨⟨?_, ?_, hh2, hh3, ?_⟩, ?_, ?_⟩
  · rw [hh1]; ring
  · rw [hdate, hjs]
    exact addDays_cancel hv _
  · rw [hdate, hjs]
    exact valid_addDays hv _
  · norm_num [convertToUT, hourUp_step, hourUp_base, hourDown_base, addDays, subDaysNat,
      prevDay, jsDateYear, daysInMonth]
  · norm_num [convertToUT, hourUp_base, hourDown_step, hourDown_base, addDays, addDaysNat,
      nextDay, jsDateYear, daysInMonth, isLeapYear]

/-- Witness for the amended C5 at 1971-04-18, H = 2, O = +5. -/
theorem c5_ut_roundtrip_witness :
    (((1971:ℤ) < 0 ∨ 100 ≤ (1971:ℤ)) ∧ ValidDate ⟨1971, 4, 18⟩ ∧ (0:ℚ) ≤ 2 ∧ (2:ℚ) < 24)
    ∧ ((convertToUT 1971 4 18 2 5).hour + 5 + 24 * (convertToUT 1971 4 18 2 5).dayAdj = 2
      ∧ addDays ⟨(convertToUT 1971 4 18 2 5).year, (convertToUT 1971 4 18 2 5).month,
          (convertToUT 1971 4 18 2 5).day⟩ (-(convertToUT 1971 4 18 2 5).dayAdj) = ⟨1971, 4, 18⟩
      ∧ 0 ≤ (convertToUT 1971 4 18 2 5).hour ∧ (convertToUT 1971 4 18 2 5).hour < 24
      ∧ ValidDate ⟨(convertToUT 1971 4 18 2 5).year, (convertToUT 1971 4 18 2 5).month,
          (convertToUT 1971 4 18 2 5).day⟩) := by
  exact ⟨⟨by decide, by decide, by decide, by decide⟩,
    (c5_ut_roundtrip 1971 4 18 2 5 (by decide) (by decide) (by decide) (by decide)).1⟩

end NorthNode

